import Mathlib

/-!
Verification of the docstore Cloudflare Worker (`src/worker.js`).

The worker maps a logical document namespace onto files of a GitHub
repository.  JavaScript strings are modelled as `List Char` (UTF-16
surrogate pairs do not arise in the inputs treated here), the GitHub
content API is modelled as an oracle (`Store`), and every store-facing
helper returns, next to its result, the ordered list of backing-store
calls it has issued, so that claims about the number and content of
those calls can be stated directly.
-/

namespace Docstore

/-- JavaScript strings, modelled as lists of characters. -/
abbrev Str := List Char

/-- Coercion helper from Lean string literals to the model. -/
def str (s : String) : Str := s.data

/-- JS `s.replace(/^\/+/, "")`: drop every leading slash. -/
def stripLeadingSlashes : Str → Str
  | [] => []
  | c :: r => if c = '/' then stripLeadingSlashes r else c :: r

/-- JS `s.replace(/\/+$/, "")`: drop every trailing slash. -/
def stripTrailingSlashes (s : Str) : Str :=
  (stripLeadingSlashes s.reverse).reverse

/-- JS `x || d` for an optional string `x` (both `undefined` and the
empty string are falsy). -/
def jsOr (x : Option Str) (d : Str) : Str :=
  match x with
  | none => d
  | some s => if s.isEmpty then d else s

/-- JS `s || d` for a plain string (the empty string is falsy). -/
def jsOrK (s d : Str) : Str :=
  if s.isEmpty then d else s

/-! ## Base64 and UTF-8 codecs (`toBase64` / `fromBase64`, worker.js lines 4-22)

The worker uses `btoa`/`atob` when they exist (Cloudflare Workers,
Node 16+) and falls back to `Buffer` UTF-8 conversions otherwise.  The
environment flag `Env.hasBtoa` selects the branch, exactly as the
`typeof btoa === "function"` test does in the source. -/

/-- The base64 alphabet, digit value to character. -/
def b64Char (n : Nat) : Char :=
  (str "ABCDEFGHIJKLMNOPQRSTUVWXYZabcdefghijklmnopqrstuvwxyz0123456789+/").getD n '?'

/-- Base64-encode a byte sequence (standard alphabet, `=` padding). -/
def b64Encode : List Nat → Str
  | [] => []
  | [a] => [b64Char (a / 4), b64Char (a % 4 * 16), '=', '=']
  | [a, b] => [b64Char (a / 4), b64Char (a % 4 * 16 + b / 16), b64Char (b % 16 * 4), '=']
  | a :: b :: c :: t =>
    b64Char (a / 4) :: b64Char (a % 4 * 16 + b / 16) ::
      b64Char (b % 16 * 4 + c / 64) :: b64Char (c % 64) :: b64Encode t

/-- Value of a base64 alphabet character, `none` for everything else. -/
def b64Val (c : Char) : Option Nat :=
  if 'A' ≤ c ∧ c ≤ 'Z' then some (c.toNat - 'A'.toNat)
  else if 'a' ≤ c ∧ c ≤ 'z' then some (c.toNat - 'a'.toNat + 26)
  else if '0' ≤ c ∧ c ≤ '9' then some (c.toNat - '0'.toNat + 52)
  else if c = '+' then some 62
  else if c = '/' then some 63
  else none

/-- Decode a list of base64 digit values (padding already removed) into
bytes; a trailing group of one digit is dropped, of two or three digits
yields one or two bytes, as `Buffer.from(s, "base64")` does. -/
def b64Bytes : List Nat → List Nat
  | [] => []
  | [_] => []
  | [a, b] => [a * 4 + b / 16]
  | [a, b, c] => [a * 4 + b / 16, b % 16 * 16 + c / 4]
  | a :: b :: c :: d :: t =>
    (a * 4 + b / 16) :: (b % 16 * 16 + c / 4) :: (c % 4 * 64 + d) :: b64Bytes t

/-- UTF-8 encoding of one scalar value. -/
def utf8Bytes (n : Nat) : List Nat :=
  if n < 0x80 then [n]
  else if n < 0x800 then [0xC0 + n / 64, 0x80 + n % 64]
  else if n < 0x10000 then [0xE0 + n / 4096, 0x80 + n / 64 % 64, 0x80 + n % 64]
  else [0xF0 + n / 262144, 0x80 + n / 4096 % 64, 0x80 + n / 64 % 64, 0x80 + n % 64]

/-- UTF-8 encode a string to bytes (`Buffer.from(str, "utf8")`). -/
def utf8Encode (s : Str) : List Nat :=
  s.flatMap (fun c => utf8Bytes c.toNat)

/-- Is a byte a UTF-8 continuation byte? -/
def isCont (b : Nat) : Bool := 0x80 ≤ b ∧ b < 0xC0

/-- UTF-8 decode bytes to a string; malformed sequences become U+FFFD,
as in `buf.toString("utf8")`.  The first argument is fuel bounding the
number of decoded characters; `utf8Decode` supplies enough of it. -/
def utf8DecodeF : Nat → List Nat → Str
  | 0, _ => []
  | _ + 1, [] => []
  | fuel + 1, a :: t =>
    if a < 0x80 then Char.ofNat a :: utf8DecodeF fuel t
    else if 0xC2 ≤ a ∧ a ≤ 0xDF then
      match t with
      | b :: t2 =>
        if isCont b then Char.ofNat ((a - 0xC0) * 64 + (b - 0x80)) :: utf8DecodeF fuel t2
        else '�' :: utf8DecodeF fuel t
      | [] => ['�']
    else if 0xE0 ≤ a ∧ a ≤ 0xEF then
      match t with
      | b :: c :: t2 =>
        if isCont b ∧ isCont c then
          Char.ofNat ((a - 0xE0) * 4096 + (b - 0x80) * 64 + (c - 0x80)) :: utf8DecodeF fuel t2
        else '�' :: utf8DecodeF fuel t
      | _ => ['�']
    else if 0xF0 ≤ a ∧ a ≤ 0xF4 then
      match t with
      | b :: c :: d :: t2 =>
        if isCont b ∧ isCont c ∧ isCont d then
          Char.ofNat ((a - 0xF0) * 262144 + (b - 0x80) * 4096 + (c - 0x80) * 64 + (d - 0x80))
            :: utf8DecodeF fuel t2
        else '�' :: utf8DecodeF fuel t
      | _ => ['�']
    else '�' :: utf8DecodeF fuel t

/-- UTF-8 decode with sufficient fuel. -/
def utf8Decode (l : List Nat) : Str := utf8DecodeF l.length l

/-- Errors thrown inside the worker: GitHub API errors carry the HTTP
status the source attaches as `err.status`; plain JS exceptions
(encoder failures and the like) have no status. -/
inductive Err where
  | api (status : Nat) (message : Str)
  | js (message : Str)
deriving DecidableEq, Repr

/-- JS `err.status`: `some` for API errors, `undefined` otherwise. -/
def Err.status : Err → Option Nat
  | .api s _ => some s
  | .js _ => none

/-- Worker configuration (`env` bindings and runtime detection).  Unset
string variables are modelled as the empty string, which is falsy in
JS exactly like `undefined`. -/
structure Env where
  DOCS_BASE_DIR : Str
  GITHUB_BRANCH : Str
  DOCSTORE_API_TOKEN : Str
  hasBtoa : Bool
deriving DecidableEq, Repr

/-- `toBase64` (worker.js lines 4-12).  With `btoa` available the source
calls `btoa(str)`, which throws `InvalidCharacterError` as soon as one
UTF-16 code unit exceeds 0xFF and otherwise base64-encodes the code
units as bytes; without it, `Buffer.from(str, "utf8").toString("base64")`
encodes the UTF-8 bytes. -/
def toBase64 (env : Env) (s : Str) : Except Err Str :=
  if env.hasBtoa then
    if s.all (fun c => c.toNat ≤ 0xFF) then
      .ok (b64Encode (s.map Char.toNat))
    else
      .error (.js (str "InvalidCharacterError"))
  else
    .ok (b64Encode (utf8Encode s))

/-- Keep only base64 alphabet digits, as the forgiving `Buffer` decoder
does (whitespace and padding are ignored). -/
def b64Digits (s : Str) : List Nat :=
  s.filterMap b64Val

/-- JS `atob` input validation: after removing ASCII whitespace the
string must consist of alphabet characters with correct `=` padding. -/
def atobWellFormed (s : Str) : Bool :=
  let t := s.filter (fun c => ¬ (c = ' ' ∨ c = '\t' ∨ c = '\n' ∨ c = '\r'))
  let core := t.takeWhile (fun c => (b64Val c).isSome)
  let pad := t.drop core.length
  (core.all (fun c => (b64Val c).isSome)) ∧
    (pad = [] ∨ pad = ['='] ∨ pad = ['=', '=']) ∧
    ((core.length + pad.length) % 4 = 0 ∨ (pad = [] ∧ core.length % 4 ≠ 1)) ∧
    core.length % 4 ≠ 1

/-- `fromBase64` (worker.js lines 14-22): `atob` when available (decoded
bytes become one character each), otherwise
`Buffer.from(str, "base64").toString("utf8")`. -/
def fromBase64 (env : Env) (s : Str) : Except Err Str :=
  if env.hasBtoa then
    if atobWellFormed s then
      .ok ((b64Bytes (b64Digits s)).map Char.ofNat)
    else
      .error (.js (str "InvalidCharacterError"))
  else
    .ok (utf8Decode (b64Bytes (b64Digits s)))

/-! ## Path mapper (`normalizeBaseDir`, `buildRepoPath`, worker.js lines 62-74) -/

/-- `normalizeBaseDir` (lines 62-65): default the base directory to
`"docs"` and strip trailing slashes. -/
def normalizeBaseDir (env : Env) : Str :=
  stripTrailingSlashes (jsOrK env.DOCS_BASE_DIR (str "docs"))

/-- `buildRepoPath` (lines 67-74): logical path to repository path.  An
empty or `"/"` logical path maps to the base directory itself, any
other path has its leading slashes stripped and the base directory
prepended. -/
def buildRepoPath (env : Env) (docPath : Str) : Str :=
  let base := normalizeBaseDir env
  if docPath.isEmpty ∨ docPath = ['/'] then base
  else base ++ '/' :: stripLeadingSlashes docPath

/-- `logicalPathFromGitPath`: repository path back to logical path.
This helper is absent from `src/worker.js`; it is embedded from the
definition shipped elsewhere in the repository (the worker variant the
unit tests import it from), which matches the spec text for
`toLogicalPath`: the base directory itself maps to the empty logical
path, paths under `base + "/"` lose that prefix, anything else passes
through unchanged. -/
def logicalPathFromGitPath (env : Env) (gitPath : Str) : Str :=
  let base := normalizeBaseDir env
  if gitPath = base then []
  else if (base ++ ['/']).isPrefixOf gitPath then gitPath.drop (base.length + 1)
  else gitPath

/-! ## Backing store model (GitHub contents API)

`githubRequest` (worker.js lines 24-60) issues one HTTP call per
invocation and turns non-2xx responses into errors carrying
`err.status`.  The model keeps that behaviour abstract in a `Store`
oracle keyed by the repository path and, for mutations, the request
body; every client helper also returns the ordered list of calls it
issued. -/

/-- A file object of the contents API (fields the worker reads). -/
structure FileObj where
  name : Str
  path : Str
  type : Str
  sha : Str
  content : Str
deriving DecidableEq, Repr

/-- A successful contents `GET` returns either a single object (file)
or an array of objects (directory listing). -/
inductive JContent where
  | obj (f : FileObj)
  | arr (items : List FileObj)
deriving DecidableEq, Repr

/-- Commit metadata echoed by the backing store. -/
structure Commit where
  sha : Str
  message : Str
deriving DecidableEq, Repr

/-- Body of a contents `PUT` as built by `putFile`; `sha = none` means
the field is absent from the JSON body. -/
structure PutBody where
  message : Str
  content : Str
  branch : Str
  sha : Option Str
deriving DecidableEq, Repr

/-- Body of a contents `DELETE` as built by `deleteFile`; `sha = none`
models the `undefined` that `JSON.stringify` drops. -/
structure DelBody where
  message : Str
  sha : Option Str
  branch : Str
deriving DecidableEq, Repr

/-- Response of a successful contents `PUT` (fields the worker reads). -/
structure PutResult where
  content : FileObj
  commit : Commit
deriving DecidableEq, Repr

/-- Response of a successful contents `DELETE`. -/
structure DelResult where
  commit : Commit
deriving DecidableEq, Repr

/-- One call issued to the backing store, keyed by repository path. -/
inductive StoreCall where
  | get (repoPath : Str)
  | put (repoPath : Str) (body : PutBody)
  | del (repoPath : Str) (body : DelBody)
deriving DecidableEq, Repr

/-- The backing store as an oracle: what each call would return. -/
structure Store where
  getr : Str → Except Err JContent
  putr : Str → PutBody → Except Err PutResult
  delr : Str → DelBody → Except Err DelResult

/-- JS `current.sha` on a contents `GET` result: a file object has a
`sha` field, an array does not (`undefined`). -/
def JContent.shaField : JContent → Option Str
  | .obj f => some f.sha
  | .arr _ => none

/-- JS `file.type` on a contents `GET` result (`undefined` for arrays). -/
def JContent.typeField : JContent → Option Str
  | .obj f => some f.type
  | .arr _ => none

/-! ## Content-store client (worker.js lines 76-138) -/

/-- `getFile` (lines 76-82): one retrieval call for the mapped
repository path. -/
def getFile (env : Env) (store : Store) (docPath : Str) :
    Except Err JContent × List StoreCall :=
  let repoPath := buildRepoPath env docPath
  (store.getr repoPath, [.get repoPath])

/-- Truthiness of the discovered `existingSha` (`null`, `undefined` and
the empty string are falsy). -/
def shaTruthy : Option Str → Bool
  | none => false
  | some s => ¬ s.isEmpty

/-- `putFile` (lines 84-110): discover an existing revision marker via
`getFile`, rethrowing every error other than a 404; then build the
write body (default message chosen by create-vs-update, base64-encoded
content, configured branch, `sha` only when a truthy marker was found)
and issue exactly one write call. -/
def putFile (env : Env) (store : Store) (docPath content : Str)
    (commitMessage : Option Str) : Except Err PutResult × List StoreCall :=
  let repoPath := buildRepoPath env docPath
  let proceed : Option Str → Except Err PutResult × List StoreCall := fun existingSha =>
    match toBase64 env content with
    | .error e => (.error e, [.get repoPath])
    | .ok enc =>
      let body : PutBody :=
        { message := jsOr commitMessage
            (if shaTruthy existingSha then str "Update " ++ repoPath
             else str "Create " ++ repoPath)
          content := enc
          branch := env.GITHUB_BRANCH
          sha := if shaTruthy existingSha then existingSha else none }
      (store.putr repoPath body, [.get repoPath, .put repoPath body])
  match (getFile env store docPath).1 with
  | .ok current => proceed current.shaField
  | .error e =>
    if e.status = some 404 then proceed none
    else (.error e, [.get repoPath])

/-- `deleteFile` (lines 112-126): `getFile` first (its errors, a 404
included, propagate unchanged and no delete call is issued), then one
delete call carrying the discovered `sha` and the configured branch. -/
def deleteFile (env : Env) (store : Store) (docPath : Str)
    (commitMessage : Option Str) : Except Err DelResult × List StoreCall :=
  let repoPath := buildRepoPath env docPath
  match (getFile env store docPath).1 with
  | .error e => (.error e, [.get repoPath])
  | .ok current =>
    let body : DelBody :=
      { message := jsOr commitMessage (str "Delete " ++ repoPath)
        sha := current.shaField
        branch := env.GITHUB_BRANCH }
    (store.delr repoPath body, [.get repoPath, .del repoPath body])

/-- `listDocs` (lines 128-138): one retrieval call for the mapped
directory path; a non-array response is wrapped into a one-element
array, an array is returned as-is. -/
def listDocs (env : Env) (store : Store) (dirPath : Str) :
    Except Err (List FileObj) × List StoreCall :=
  let repoPath := buildRepoPath env (jsOrK dirPath [])
  match store.getr repoPath with
  | .error e => (.error e, [.get repoPath])
  | .ok (.obj f) => (.ok [f], [.get repoPath])
  | .ok (.arr items) => (.ok items, [.get repoPath])

/-! ## Request router (worker.js lines 140-295) -/

/-- HTTP methods distinguished by the router (`POST` stands for every
method other than the three it handles). -/
inductive Method where
  | GET
  | PUT
  | DELETE
  | POST
deriving DecidableEq, Repr

/-- A JSON field value as inspected by `typeof x === "string"`. -/
inductive JVal where
  | strv (s : Str)
  | other
deriving DecidableEq, Repr

/-- The parsed JSON request body (fields the router reads; a missing
field is `none`). -/
structure JObj where
  content : Option JVal
  message : Option JVal
deriving DecidableEq, Repr

/-- An inbound HTTP request as the worker sees it: method, decoded
`pathname`, the `dir` query parameter, the `Authorization` header and
the result of `await request.json()` (`Except.error` when the body is
absent or not valid JSON). -/
structure Request where
  method : Method
  pathname : Str
  dirParam : Option Str
  auth : Option Str
  jsonBody : Except Unit JObj

/-- JSON response bodies the worker produces, by shape. -/
inductive RespBody where
  | err (message : Str)
  | health
  | listing (l : List (Str × Str × Str))
  | doc (path name sha content : Str)
  | putOut (path name sha commitSha commitMessage : Str)
  | delOut (path commitSha commitMessage : Str)
  | errDetail (message detail : Str)
deriving DecidableEq, Repr

/-- An HTTP response: status code and JSON body shape. -/
structure HResp where
  status : Nat
  body : RespBody
deriving DecidableEq, Repr

/-- Hex digit value, for percent-decoding. -/
def hexVal (c : Char) : Option Nat :=
  if '0' ≤ c ∧ c ≤ '9' then some (c.toNat - '0'.toNat)
  else if 'a' ≤ c ∧ c ≤ 'f' then some (c.toNat - 'a'.toNat + 10)
  else if 'A' ≤ c ∧ c ≤ 'F' then some (c.toNat - 'A'.toNat + 10)
  else none

/-- `decodeURIComponent`, modelled for ASCII percent escapes: `%hh`
with a value below 0x80 decodes to that character, malformed or
multi-byte escapes throw `URIError` (the flows verified here never
contain a percent sign). -/
def pctDecode : Str → Except Err Str
  | [] => .ok []
  | '%' :: a :: b :: t =>
    match hexVal a, hexVal b with
    | some x, some y =>
      if x * 16 + y < 0x80 then
        (pctDecode t).map (fun r => Char.ofNat (x * 16 + y) :: r)
      else .error (.js (str "URIError"))
    | _, _ => .error (.js (str "URIError"))
  | '%' :: _ => .error (.js (str "URIError"))
  | c :: t => (pctDecode t).map (fun r => c :: r)

/-- `checkAuth` (lines 157-174): `GET /` passes with no check;
otherwise a missing server token is a 500, and an `Authorization`
header differing from `Bearer <token>` is a 401. -/
def checkAuth (req : Request) (env : Env) : Except (Nat × Str) Unit :=
  if req.pathname = ['/'] ∧ req.method = .GET then .ok ()
  else if env.DOCSTORE_API_TOKEN.isEmpty then
    .error (500, str "DOCSTORE_API_TOKEN is not configured")
  else if (req.auth.getD []) = str "Bearer " ++ env.DOCSTORE_API_TOKEN then .ok ()
  else .error (401, str "Unauthorized")

/-- Extract the commit message field: `typeof body.message === "string"
? body.message : undefined`. -/
def msgField (body : JObj) : Option Str :=
  match body.message with
  | some (.strv s) => some s
  | _ => none

/-- The `GET /docs/<path>` handler body (lines 206-226). -/
def handleGetDoc (env : Env) (store : Store) (docPath : Str) :
    HResp × List StoreCall :=
  match getFile env store docPath with
  | (.error e, calls) =>
    if e.status = some 404 then (⟨404, .err (str "Document not found")⟩, calls)
    else (⟨500, .err (match e with | .api _ m => m | .js m => m)⟩, calls)
  | (.ok file, calls) =>
    match file with
    | .arr _ => (⟨400, .err (str "Requested path is not a file")⟩, calls)
    | .obj f =>
      if f.type ≠ str "file" then
        (⟨400, .err (str "Requested path is not a file")⟩, calls)
      else
        match fromBase64 env f.content with
        | .error e =>
          (⟨500, .err (match e with | .api _ m => m | .js m => m)⟩, calls)
        | .ok content => (⟨200, .doc f.path f.name f.sha content⟩, calls)

/-- The `PUT /docs/<path>` handler body (lines 228-258). -/
def handlePutDoc (env : Env) (store : Store) (docPath : Str)
    (jsonBody : Except Unit JObj) : HResp × List StoreCall :=
  match jsonBody with
  | .error _ => (⟨400, .err (str "Expected JSON body")⟩, [])
  | .ok body =>
    match body.content with
    | some (.strv content) =>
      match putFile env store docPath content (msgField body) with
      | (.ok result, calls) =>
        (⟨200, .putOut result.content.path result.content.name result.content.sha
          result.commit.sha result.commit.message⟩, calls)
      | (.error e, calls) =>
        if e.status = some 404 then
          (⟨404, .err (str "Repository or branch not found")⟩, calls)
        else (⟨500, .err (match e with | .api _ m => m | .js m => m)⟩, calls)
    | _ => (⟨400, .err (str "Field 'content' (string) is required")⟩, [])

/-- The `DELETE /docs/<path>` handler body (lines 260-285): a body that
fails to parse is replaced by the empty object. -/
def handleDeleteDoc (env : Env) (store : Store) (docPath : Str)
    (jsonBody : Except Unit JObj) : HResp × List StoreCall :=
  let body := match jsonBody with
    | .error _ => ({ content := none, message := none } : JObj)
    | .ok b => b
  match deleteFile env store docPath (msgField body) with
  | (.ok result, calls) =>
    (⟨200, .delOut docPath result.commit.sha result.commit.message⟩, calls)
  | (.error e, calls) =>
    if e.status = some 404 then (⟨404, .err (str "Document not found")⟩, calls)
    else (⟨500, .err (match e with | .api _ m => m | .js m => m)⟩, calls)

/-- The `fetch` entry point (lines 176-295): authenticate, then route
by method and path, rendering component failures as JSON responses;
errors escaping the route handlers (`listDocs`, percent-decoding) hit
the top-level catch and render as 500 with a detail field. -/
def fetchW (env : Env) (store : Store) (req : Request) :
    HResp × List StoreCall :=
  match checkAuth req env with
  | .error (status, message) => (⟨status, .err message⟩, [])
  | .ok () =>
    if req.pathname = ['/'] ∧ req.method = .GET then
      (⟨200, .health⟩, [])
    else if req.pathname = str "/docs" ∧ req.method = .GET then
      match listDocs env store (req.dirParam.getD []) with
      | (.ok items, calls) =>
        (⟨200, .listing (items.map (fun i => (i.name, i.path, i.type)))⟩, calls)
      | (.error e, calls) =>
        (⟨500, .errDetail (str "Unexpected error")
          (match e with | .api _ m => m | .js m => m)⟩, calls)
    else if (str "/docs/").isPrefixOf req.pathname then
      match pctDecode (req.pathname.drop 6) with
      | .error e =>
        (⟨500, .errDetail (str "Unexpected error")
          (match e with | .api _ m => m | .js m => m)⟩, [])
      | .ok docPath =>
        match req.method with
        | .GET => handleGetDoc env store docPath
        | .PUT => handlePutDoc env store docPath req.jsonBody
        | .DELETE => handleDeleteDoc env store docPath req.jsonBody
        | .POST => (⟨405, .err (str "Method not allowed")⟩, [])
    else
      (⟨404, .err (str "Not found")⟩, [])

/-! ## Helper lemmas -/

theorem isPrefixOf_append_self : ∀ (l t : Str), l.isPrefixOf (l ++ t) = true
  | [], _ => by simp [List.isPrefixOf]
  | a :: l, t => by simp [List.isPrefixOf, isPrefixOf_append_self l t]

theorem cons_as_append (b c : Str) (ch : Char) : b ++ ch :: c = (b ++ [ch]) ++ c := by
  simp

theorem append_cons_ne_left (b c : Str) (ch : Char) : b ++ ch :: c ≠ b := by
  intro h
  have h2 := congrArg List.length h
  simp [List.length_append] at h2

theorem drop_append_cons (b c : Str) (ch : Char) :
    (b ++ ch :: c).drop (b.length + 1) = c := by
  rw [cons_as_append]
  have h1 : (b ++ [ch]).length = b.length + 1 := by simp
  rw [← h1, List.drop_left]

/-- A repository path sitting strictly under the base directory maps
back to the part after the slash. -/
theorem lpf_under_base (env : Env) (c : Str) :
    logicalPathFromGitPath env (normalizeBaseDir env ++ '/' :: c) = c := by
  have hpre : (normalizeBaseDir env ++ ['/']).isPrefixOf
      (normalizeBaseDir env ++ '/' :: c) = true := by
    rw [cons_as_append (normalizeBaseDir env) c '/']
    exact isPrefixOf_append_self _ _
  unfold logicalPathFromGitPath
  rw [if_neg (append_cons_ne_left _ _ _), if_pos hpre, drop_append_cons]

/-! ## Concrete scenario data for witnesses and evaluations -/

/-- The configuration of the end-to-end scenarios: base directory
`docs`, branch `main`, a configured API token, `btoa` available (the
Cloudflare Workers runtime the worker targets). -/
def envA : Env := ⟨str "docs", str "main", str "api-token", true⟩

/-- The file object the backing store echoes after the scenario `PUT`. -/
def fileA : FileObj := ⟨str "test.md", str "docs/test.md", str "file", str "sha123", []⟩

/-- The pre-existing file of the delete/update scenarios. -/
def fileB : FileObj := ⟨str "test.md", str "docs/test.md", str "file", str "sha-file", []⟩

/-- An empty backing store: every `GET` is a 404; a write succeeds and
echoes `fileA` with commit `commitsha` and the submitted message. -/
def storeCreate : Store :=
  ⟨fun _ => .error (.api 404 (str "Not Found")),
   fun _ body => .ok ⟨fileA, ⟨str "commitsha", body.message⟩⟩,
   fun _ _ => .error (.api 500 (str "unexpected"))⟩

/-- A backing store holding `fileB` at every path; mutations succeed
and echo the submitted message. -/
def storeExisting : Store :=
  ⟨fun _ => .ok (.obj fileB),
   fun _ body => .ok ⟨fileA, ⟨str "commitsha", body.message⟩⟩,
   fun _ body => .ok ⟨⟨str "commitsha", body.message⟩⟩⟩

/-- An unreachable backing store: every call fails with a 503. -/
def storeDown : Store :=
  ⟨fun _ => .error (.api 503 (str "down")),
   fun _ _ => .error (.api 503 (str "down")),
   fun _ _ => .error (.api 503 (str "down"))⟩

/-- A backing store whose listing of any path yields one directory
entry, reported under its repository path. -/
def storeDir : Store :=
  ⟨fun _ => .ok (.arr [⟨str "canon.md", str "docs/ftl/canon.md", str "file", str "sha1", []⟩]),
   fun _ _ => .error (.api 500 (str "unexpected")),
   fun _ _ => .error (.api 500 (str "unexpected"))⟩

/-! ## Claims -/

/-- C5: the repository-to-logical mapping inverts the
logical-to-repository mapping: mapping a logical path `p` into the
repository and back yields `p` with its leading slashes stripped; the
base directory itself maps back to the empty logical path; and a
repository path outside the base directory passes through unchanged. -/
theorem path_mapping_round_trip (env : Env) (p : Str) :
    logicalPathFromGitPath env (buildRepoPath env p) = stripLeadingSlashes p ∧
    logicalPathFromGitPath env (normalizeBaseDir env) = [] ∧
    (∀ g, g ≠ normalizeBaseDir env →
      (normalizeBaseDir env ++ ['/']).isPrefixOf g = false →
      logicalPathFromGitPath env g = g) := by
  refine ⟨?_, ?_, ?_⟩
  · unfold buildRepoPath
    by_cases h : p.isEmpty ∨ p = ['/']
    · rw [if_pos h]
      have hp : stripLeadingSlashes p = [] := by
        rcases h with h | h
        · rw [List.isEmpty_iff] at h
          subst h; rfl
        · subst h; rfl
      rw [hp]
      simp [logicalPathFromGitPath]
    · rw [if_neg h]
      exact lpf_under_base env _
  · simp [logicalPathFromGitPath]
  · intro g h1 h2
    simp [logicalPathFromGitPath, h1, h2]

/-- C5 witness: the round-trip law, the base-directory case and the
outside-base case evaluated at concrete inputs. -/
theorem path_mapping_round_trip_witness :
    logicalPathFromGitPath envA (buildRepoPath envA (str "/a/b.md")) =
      stripLeadingSlashes (str "/a/b.md") ∧
    logicalPathFromGitPath envA (normalizeBaseDir envA) = [] ∧
    logicalPathFromGitPath envA (str "other/x.md") = str "other/x.md" :=
  ⟨(path_mapping_round_trip envA (str "/a/b.md")).1,
   (path_mapping_round_trip envA (str "/a/b.md")).2.1,
   (path_mapping_round_trip envA (str "/a/b.md")).2.2 (str "other/x.md")
     (by decide) (by decide)⟩

/-- C4: `buildRepoPath` evaluated where the claim says already-prefixed
input is left unchanged: the source unconditionally prepends the base
directory, so `buildRepoPath` on `docs` yields `docs/docs` (and on
`docs/x` yields `docs/docs/x`), not the unchanged input the claim (and
the repository's own unit tests) demand. -/
theorem buildRepoPath_double_prefix_eval :
    buildRepoPath envA (str "docs") = str "docs/docs" ∧
    buildRepoPath envA (str "docs/x") = str "docs/docs/x" ∧
    str "docs/docs" ≠ str "docs" := by
  decide

/-- C9: with `btoa` present (the Workers runtime, and Node 16+ where
the unit tests run), `toBase64` on text containing a CJK ideograph
throws `InvalidCharacterError` instead of encoding it, so the
encode-decode round trip cannot return the original string. -/
theorem base64_btoa_multibyte_eval :
    toBase64 envA (str "漢字") = .error (.js (str "InvalidCharacterError")) ∧
    (toBase64 envA (str "漢字")).bind (fun e => fromBase64 envA e) ≠
      .ok (str "漢字") := by
  refine ⟨rfl, ?_⟩
  have hb : (toBase64 envA (str "漢字")).bind (fun e => fromBase64 envA e) =
      .error (.js (str "InvalidCharacterError")) := rfl
  rw [hb]
  simp

/-- C1: `putFile` first attempts a `get`.  When that get fails with a
404 it issues exactly one write whose body carries no `sha` and, with
no caller message, the default `Create <repositoryPath>`; when the get
succeeds on a file object (with the nonempty revision marker the
backing store assigns) it issues the write with that marker and the
default `Update <repositoryPath>`; when the get fails with any other
error, that error is propagated and no write call is issued. -/
theorem putFile_upsert_protocol (env : Env) (store : Store) (p c : Str) :
    (∀ m enc, store.getr (buildRepoPath env p) = .error (.api 404 m) →
      toBase64 env c = .ok enc →
      putFile env store p c none =
        (store.putr (buildRepoPath env p)
          ⟨str "Create " ++ buildRepoPath env p, enc, env.GITHUB_BRANCH, none⟩,
         [.get (buildRepoPath env p),
          .put (buildRepoPath env p)
            ⟨str "Create " ++ buildRepoPath env p, enc, env.GITHUB_BRANCH, none⟩])) ∧
    (∀ f enc, store.getr (buildRepoPath env p) = .ok (.obj f) →
      f.sha ≠ [] → toBase64 env c = .ok enc →
      putFile env store p c none =
        (store.putr (buildRepoPath env p)
          ⟨str "Update " ++ buildRepoPath env p, enc, env.GITHUB_BRANCH, some f.sha⟩,
         [.get (buildRepoPath env p),
          .put (buildRepoPath env p)
            ⟨str "Update " ++ buildRepoPath env p, enc, env.GITHUB_BRANCH, some f.sha⟩])) ∧
    (∀ e msg, store.getr (buildRepoPath env p) = .error e → e.status ≠ some 404 →
      putFile env store p c msg = (.error e, [.get (buildRepoPath env p)])) := by
  refine ⟨?_, ?_, ?_⟩
  · intro m enc hget henc
    simp [putFile, getFile, hget, henc, Err.status, shaTruthy, jsOr]
  · intro f enc hget hsha henc
    have hne : f.sha.isEmpty = false := by
      cases h : f.sha.isEmpty
      · rfl
      · rw [List.isEmpty_iff] at h; exact absurd h hsha
    simp [putFile, getFile, hget, henc, JContent.shaField, shaTruthy, hne, jsOr]
  · intro e msg hget hst
    simp [putFile, getFile, hget, hst]

/-- C1 witness: the three branches of the upsert protocol evaluated at
concrete stores (empty store, store holding `fileB`, unreachable
store). -/
theorem putFile_upsert_protocol_witness :
    putFile envA storeCreate (str "test.md") (str "Hello world") none =
      (.ok ⟨fileA, ⟨str "commitsha", str "Create docs/test.md"⟩⟩,
       [.get (str "docs/test.md"),
        .put (str "docs/test.md")
          ⟨str "Create docs/test.md", str "SGVsbG8gd29ybGQ=", str "main", none⟩]) ∧
    putFile envA storeExisting (str "test.md") (str "Hello world") none =
      (.ok ⟨fileA, ⟨str "commitsha", str "Update docs/test.md"⟩⟩,
       [.get (str "docs/test.md"),
        .put (str "docs/test.md")
          ⟨str "Update docs/test.md", str "SGVsbG8gd29ybGQ=", str "main",
           some (str "sha-file")⟩]) ∧
    putFile envA storeDown (str "test.md") (str "Hello world") none =
      (.error (.api 503 (str "down")), [.get (str "docs/test.md")]) :=
  ⟨(putFile_upsert_protocol envA storeCreate (str "test.md") (str "Hello world")).1
      (str "Not Found") (str "SGVsbG8gd29ybGQ=") rfl rfl,
   (putFile_upsert_protocol envA storeExisting (str "test.md") (str "Hello world")).2.1
      fileB (str "SGVsbG8gd29ybGQ=") rfl (by decide) rfl,
   (putFile_upsert_protocol envA storeDown (str "test.md") (str "Hello world")).2.2
      (.api 503 (str "down")) none rfl (by decide)⟩

theorem docs_drop (q : Str) : (str "/docs/" ++ q).drop 6 = q := by
  have h : (str "/docs/").length = 6 := rfl
  rw [← h, List.drop_left]

/-- C2: `deleteFile` first performs a `get`.  A 404 on that get makes
the whole operation fail as that 404 with no delete call issued, and
the router renders it as a 404 response; a successful get is followed
by exactly one delete call carrying the discovered revision marker. -/
theorem deleteFile_get_first_protocol (env : Env) (store : Store) (p : Str)
    (msg : Option Str) :
    (∀ m, store.getr (buildRepoPath env p) = .error (.api 404 m) →
      deleteFile env store p msg =
        (.error (.api 404 m), [.get (buildRepoPath env p)])) ∧
    (∀ f, store.getr (buildRepoPath env p) = .ok (.obj f) →
      deleteFile env store p msg =
        (store.delr (buildRepoPath env p)
          ⟨jsOr msg (str "Delete " ++ buildRepoPath env p), some f.sha,
           env.GITHUB_BRANCH⟩,
         [.get (buildRepoPath env p),
          .del (buildRepoPath env p)
            ⟨jsOr msg (str "Delete " ++ buildRepoPath env p), some f.sha,
             env.GITHUB_BRANCH⟩])) ∧
    (∀ q m bd dp, env.DOCSTORE_API_TOKEN.isEmpty = false →
      pctDecode q = .ok p →
      store.getr (buildRepoPath env p) = .error (.api 404 m) →
      fetchW env store
        ⟨.DELETE, str "/docs/" ++ q, dp,
         some (str "Bearer " ++ env.DOCSTORE_API_TOKEN), bd⟩ =
        (⟨404, .err (str "Document not found")⟩, [.get (buildRepoPath env p)])) := by
  refine ⟨?_, ?_, ?_⟩
  · intro m hget
    simp [deleteFile, getFile, hget]
  · intro f hget
    simp [deleteFile, getFile, hget, JContent.shaField]
  · intro q m bd dp ht hq hget
    simp [fetchW, checkAuth, ht, isPrefixOf_append_self, docs_drop, hq,
      handleDeleteDoc, deleteFile, getFile, hget, Err.status]

/-- C2 witness: deleting an absent document fails as 404 with only the
discovery get issued (and renders as 404 through the router); deleting
an existing document issues one delete call carrying `sha-file`. -/
theorem deleteFile_get_first_protocol_witness :
    deleteFile envA storeCreate (str "test.md") none =
      (.error (.api 404 (str "Not Found")), [.get (str "docs/test.md")]) ∧
    deleteFile envA storeExisting (str "test.md") none =
      (.ok ⟨⟨str "commitsha", str "Delete docs/test.md"⟩⟩,
       [.get (str "docs/test.md"),
        .del (str "docs/test.md")
          ⟨str "Delete docs/test.md", some (str "sha-file"), str "main"⟩]) ∧
    fetchW envA storeCreate
      ⟨.DELETE, str "/docs/test.md", none, some (str "Bearer api-token"),
       .error ()⟩ =
      (⟨404, .err (str "Document not found")⟩, [.get (str "docs/test.md")]) :=
  ⟨(deleteFile_get_first_protocol envA storeCreate (str "test.md") none).1
      (str "Not Found") rfl,
   (deleteFile_get_first_protocol envA storeExisting (str "test.md") none).2.1
      fileB rfl,
   (deleteFile_get_first_protocol envA storeCreate (str "test.md") none).2.2
      (str "test.md") (str "Not Found") (.error ()) none rfl rfl rfl⟩

/-- The scenario configuration with no API token configured. -/
def envNoTok : Env := ⟨str "docs", str "main", [], true⟩

/-- C3: `GET /` is served without authentication; every other request
needs an `Authorization` header byte-equal to `Bearer <token>`, else
the router answers 401 with no backing-store call issued; and with no
server-side token configured every protected request answers 500. -/
theorem auth_gate (env : Env) (store : Store) (req : Request) :
    (req.pathname = ['/'] ∧ req.method = .GET →
      fetchW env store req = (⟨200, .health⟩, [])) ∧
    (¬ (req.pathname = ['/'] ∧ req.method = .GET) →
      env.DOCSTORE_API_TOKEN.isEmpty = true →
      fetchW env store req =
        (⟨500, .err (str "DOCSTORE_API_TOKEN is not configured")⟩, [])) ∧
    (¬ (req.pathname = ['/'] ∧ req.method = .GET) →
      env.DOCSTORE_API_TOKEN.isEmpty = false →
      req.auth.getD [] ≠ str "Bearer " ++ env.DOCSTORE_API_TOKEN →
      fetchW env store req = (⟨401, .err (str "Unauthorized")⟩, [])) := by
  refine ⟨?_, ?_, ?_⟩
  · intro h
    simp [fetchW, checkAuth, h.1, h.2]
  · intro hn ht
    simp [fetchW, checkAuth, hn, ht]
  · intro hn ht hne
    simp [fetchW, checkAuth, hn, ht, hne]

/-- C3 witness: an unauthenticated `GET /` is served; a protected
request against an unconfigured token answers 500; a protected request
with no `Authorization` header answers 401 — each with zero
backing-store calls even against a live store. -/
theorem auth_gate_witness :
    fetchW envA storeDown ⟨.GET, ['/'], none, none, .error ()⟩ =
      (⟨200, .health⟩, []) ∧
    fetchW envNoTok storeDown ⟨.GET, str "/docs", none, none, .error ()⟩ =
      (⟨500, .err (str "DOCSTORE_API_TOKEN is not configured")⟩, []) ∧
    fetchW envA storeDown ⟨.GET, str "/docs", none, none, .error ()⟩ =
      (⟨401, .err (str "Unauthorized")⟩, []) :=
  ⟨(auth_gate envA storeDown ⟨.GET, ['/'], none, none, .error ()⟩).1
      (by exact ⟨rfl, rfl⟩),
   (auth_gate envNoTok storeDown ⟨.GET, str "/docs", none, none, .error ()⟩).2.1
      (by decide) rfl,
   (auth_gate envA storeDown ⟨.GET, str "/docs", none, none, .error ()⟩).2.2
      (by decide) rfl (by decide)⟩

/-- C6: the scenario `PUT /docs/test.md` with content `Hello world`
and message `Create test.md` against an empty backing store issues
exactly one write with no `sha` and branch `main`, but the response
echoes the backing store's repository path `docs/test.md` — not the
logical path `test.md` the claim requires. -/
theorem put_scenario_eval :
    fetchW envA storeCreate
      ⟨.PUT, str "/docs/test.md", none, some (str "Bearer api-token"),
       .ok ⟨some (.strv (str "Hello world")), some (.strv (str "Create test.md"))⟩⟩ =
      (⟨200, .putOut (str "docs/test.md") (str "test.md") (str "sha123")
        (str "commitsha") (str "Create test.md")⟩,
       [.get (str "docs/test.md"),
        .put (str "docs/test.md")
          ⟨str "Create test.md", str "SGVsbG8gd29ybGQ=", str "main", none⟩]) ∧
    str "docs/test.md" ≠ str "test.md" := by
  decide

/-- C7: a directory listing passes each entry's repository path through
unchanged (`docs/ftl/canon.md`), although the logical form the claim
requires would be `ftl/canon.md` as `logicalPathFromGitPath` computes
it. -/
theorem listing_path_passthrough_eval :
    fetchW envA storeDir
      ⟨.GET, str "/docs", some (str "ftl"), some (str "Bearer api-token"),
       .error ()⟩ =
      (⟨200, .listing [(str "canon.md", str "docs/ftl/canon.md", str "file")]⟩,
       [.get (str "docs/ftl")]) ∧
    logicalPathFromGitPath envA (str "docs/ftl/canon.md") = str "ftl/canon.md" ∧
    str "docs/ftl/canon.md" ≠ str "ftl/canon.md" := by
  decide

/-- C8: `listDocs` wraps a single-object backing-store response into a
one-element sequence and returns an array response as-is, so callers
always receive a sequence. -/
theorem listDocs_sequence (env : Env) (store : Store) (dir : Str) :
    (∀ f, store.getr (buildRepoPath env (jsOrK dir [])) = .ok (.obj f) →
      listDocs env store dir =
        (.ok [f], [.get (buildRepoPath env (jsOrK dir []))])) ∧
    (∀ l, store.getr (buildRepoPath env (jsOrK dir [])) = .ok (.arr l) →
      listDocs env store dir =
        (.ok l, [.get (buildRepoPath env (jsOrK dir []))])) := by
  constructor <;> (intro x hget; simp [listDocs, hget])

/-- C8 witness: a file object comes back as a one-element list, an
array comes back unchanged. -/
theorem listDocs_sequence_witness :
    listDocs envA storeExisting (str "ftl") =
      (.ok [fileB], [.get (str "docs/ftl")]) ∧
    listDocs envA storeDir (str "ftl") =
      (.ok [⟨str "canon.md", str "docs/ftl/canon.md", str "file", str "sha1", []⟩],
       [.get (str "docs/ftl")]) :=
  ⟨(listDocs_sequence envA storeExisting (str "ftl")).1 fileB rfl,
   (listDocs_sequence envA storeDir (str "ftl")).2
     [⟨str "canon.md", str "docs/ftl/canon.md", str "file", str "sha1", []⟩] rfl⟩

/-- C10: a `DELETE` on a document path whose body is absent or not
valid JSON is not rejected as a validation error: the body counts as
empty, the operation proceeds, and the delete call carries the default
message `Delete <repositoryPath>`. -/
theorem delete_malformed_body_defaults (env : Env) (store : Store) (q p : Str)
    (dp : Option Str) (f : FileObj)
    (ht : env.DOCSTORE_API_TOKEN.isEmpty = false)
    (hq : pctDecode q = .ok p)
    (hget : store.getr (buildRepoPath env p) = .ok (.obj f)) :
    (fetchW env store
      ⟨.DELETE, str "/docs/" ++ q, dp,
       some (str "Bearer " ++ env.DOCSTORE_API_TOKEN), .error ()⟩).2 =
      [.get (buildRepoPath env p),
       .del (buildRepoPath env p)
         ⟨str "Delete " ++ buildRepoPath env p, some f.sha, env.GITHUB_BRANCH⟩] ∧
    (fetchW env store
      ⟨.DELETE, str "/docs/" ++ q, dp,
       some (str "Bearer " ++ env.DOCSTORE_API_TOKEN), .error ()⟩).1.status ≠ 400 := by
  have key : fetchW env store
      ⟨.DELETE, str "/docs/" ++ q, dp,
       some (str "Bearer " ++ env.DOCSTORE_API_TOKEN), .error ()⟩ =
      handleDeleteDoc env store p (.error ()) := by
    simp [fetchW, checkAuth, ht, isPrefixOf_append_self, docs_drop, hq]
  rw [key]
  cases hd : store.delr (buildRepoPath env p)
      ⟨str "Delete " ++ buildRepoPath env p, some f.sha, env.GITHUB_BRANCH⟩ with
  | ok r =>
    simp [handleDeleteDoc, msgField, deleteFile, getFile, hget,
      JContent.shaField, jsOr, hd]
  | error e =>
    by_cases h4 : e.status = some 404 <;>
      simp [handleDeleteDoc, msgField, deleteFile, getFile, hget,
        JContent.shaField, jsOr, hd, h4]

/-- C10 witness: a `DELETE /docs/test.md` with an unparseable body
against a store holding the document issues the delete with the
generated default message and is not answered with a 400. -/
theorem delete_malformed_body_defaults_witness :
    (fetchW envA storeExisting
      ⟨.DELETE, str "/docs/test.md", none, some (str "Bearer api-token"),
       .error ()⟩).2 =
      [.get (str "docs/test.md"),
       .del (str "docs/test.md")
         ⟨str "Delete docs/test.md", some (str "sha-file"), str "main"⟩] ∧
    (fetchW envA storeExisting
      ⟨.DELETE, str "/docs/test.md", none, some (str "Bearer api-token"),
       .error ()⟩).1.status ≠ 400 :=
  delete_malformed_body_defaults envA storeExisting (str "test.md")
    (str "test.md") none fileB rfl rfl rfl

end Docstore
